import Mathlib

set_option maxRecDepth 4000
set_option maxHeartbeats 1000000

unseal Rat.mul Rat.inv Rat.add Rat.sub

/-
Shallow embedding of kermit.c (keylo99/k3rmit): the configuration-file parser,
the key-binding registry with default-binding invalidation, the 256-color
palette generation, and the tab/session lifecycle handlers.

Modelling conventions:
- C strings are Lean `String`s manipulated through their `data` char lists
  (the configs in question are ASCII, so strlen = list length).
- Machine integers are `Int`/`Nat`; the hex color values exercised here fit in
  an `int`, so long-overflow clamping and the (int) truncation of strtol are
  not modelled.
- GdkRGBA channels are exact rationals (the C doubles are only ever compared
  against the very expressions that produce them).
- Fallible scans return `Option`.
-/

/-- One GdkRGBA palette entry, channels as exact rationals. -/
structure RGBA where
  red : Rat
  green : Rat
  blue : Rat
  alpha : Rat
deriving DecidableEq

/-- Model of `struct KeyBindings` of kermit.c. -/
structure Bindings where
  internal : Bool
  key : String
  cmd : String
deriving DecidableEq

/-- Model of `struct DefaultBindings` of kermit.c: a binding plus its invalidated flag. -/
structure DefaultBindings where
  bind : Bindings
  invalid : Bool
deriving DecidableEq

def GDK_SHIFT_MASK : Nat := 1
def GDK_CONTROL_MASK : Nat := 4
def GDK_MOD1_MASK : Nat := 8
def VTE_CURSOR_SHAPE_BLOCK : Nat := 0
def VTE_CURSOR_SHAPE_IBEAM : Nat := 1
def VTE_CURSOR_SHAPE_UNDERLINE : Nat := 2

/-- The 22 preconfigured default key bindings (`defaultKeyBindings` in
kermit.c, lines 86-109), each with its invalidated flag initially false
(static zero initialization). -/
def defaultKeyBindingsInit : List DefaultBindings := [
  ⟨⟨true, "c", "copy"⟩, false⟩,
  ⟨⟨true, "v", "paste"⟩, false⟩,
  ⟨⟨true, "t", "new-tab"⟩, false⟩,
  ⟨⟨true, "n", "new-window"⟩, false⟩,
  ⟨⟨true, "return", "new-tab"⟩, false⟩,
  ⟨⟨true, "r", "reload-config"⟩, false⟩,
  ⟨⟨true, "d", "default-config"⟩, false⟩,
  ⟨⟨true, "q", "exit"⟩, false⟩,
  ⟨⟨true, "k", "inc-font-size"⟩, false⟩,
  ⟨⟨true, "up", "inc-font-size"⟩, false⟩,
  ⟨⟨true, "j", "dec-font-size"⟩, false⟩,
  ⟨⟨true, "down", "dec-font-size"⟩, false⟩,
  ⟨⟨true, "equals", "default-font-size"⟩, false⟩,
  ⟨⟨true, "plus", "default-font-size"⟩, false⟩,
  ⟨⟨true, "l", "next-tab"⟩, false⟩,
  ⟨⟨true, "right", "next-tab"⟩, false⟩,
  ⟨⟨true, "page_down", "next-tab"⟩, false⟩,
  ⟨⟨true, "h", "prev-tab"⟩, false⟩,
  ⟨⟨true, "left", "prev-tab"⟩, false⟩,
  ⟨⟨true, "page_up", "prev-tab"⟩, false⟩,
  ⟨⟨true, "w", "close-tab"⟩, false⟩,
  ⟨⟨true, "backspace", "close-tab"⟩, false⟩]

/-- C `isspace` for the characters that can occur here. -/
def isCSpace (c : Char) : Bool :=
  c == ' ' || c == '\t' || c == '\n' || c == '\x0b' || c == '\x0c' || c == '\r'

/-- ASCII tolower, as used by strcasecmp. -/
def lowerAscii (c : Char) : Char :=
  if 'A' ≤ c ∧ c ≤ 'Z' then Char.ofNat (c.toNat + 32) else c

/-- True exactly when `strcasecmp(a, b) == 0`. -/
def strcaseEq (a b : String) : Bool :=
  a.data.map lowerAscii == b.data.map lowerAscii

/-- True exactly when `strncmp(a, b, n) == 0` for C strings without embedded NULs: the first `n`
characters agree (comparison stops at either terminator). -/
def cstrEqN (a b : String) (n : Nat) : Bool :=
  a.data.take n == b.data.take n

/-- Decimal digit run accumulator for atoi. -/
def digitsVal : List Char → Nat → Nat
  | c :: r, acc =>
    if '0' ≤ c ∧ c ≤ '9' then digitsVal r (acc * 10 + (c.toNat - '0'.toNat)) else acc
  | [], acc => acc

/-- C `atoi`: skip whitespace, optional sign, longest decimal-digit run
(0 when there is none; overflow is not modelled, the keys and indices in
question are small). -/
def atoi (s : String) : Int :=
  match s.data.dropWhile (fun c => isCSpace c) with
  | '-' :: r => -(digitsVal r 0 : Int)
  | '+' :: r => (digitsVal r 0 : Int)
  | l => (digitsVal l 0 : Int)

/-- Hex digit run accumulator for strtol base 16. -/
def hexDigitsVal : List Char → Nat → Nat
  | c :: r, acc =>
    if '0' ≤ c ∧ c ≤ '9' then hexDigitsVal r (acc * 16 + (c.toNat - '0'.toNat))
    else if 'a' ≤ c ∧ c ≤ 'f' then hexDigitsVal r (acc * 16 + (c.toNat - 'a'.toNat + 10))
    else if 'A' ≤ c ∧ c ≤ 'F' then hexDigitsVal r (acc * 16 + (c.toNat - 'A'.toNat + 10))
    else acc
  | [], acc => acc

/-- Base-16 body after the optional sign: an optional 0x/0X marker, then the
longest hex-digit run. -/
def strtol16core (l : List Char) : Nat :=
  match l with
  | '0' :: 'x' :: r => hexDigitsVal r 0
  | '0' :: 'X' :: r => hexDigitsVal r 0
  | _ => hexDigitsVal l 0

/-- Model of `strtol(s, NULL, 16)` (overflow clamping and the cast back to int are not
modelled: the color tokens exercised have at most six hex digits). -/
def strtol16 (s : String) : Int :=
  match s.data.dropWhile (fun c => isCSpace c) with
  | '-' :: r => -(strtol16core r : Int)
  | '+' :: r => (strtol16core r : Int)
  | l => (strtol16core l : Int)

/-- Model of `parseColor` (kermit.c 635-641): a leading '#' is replaced by a 0x marker
before the base-16 strtol; a bare token goes to strtol directly. -/
def parseColor (value : String) : Int :=
  if value.data.head? = some '#' then strtol16 ⟨'0' :: 'x' :: value.data.drop 1⟩
  else strtol16 value

/-- The `CLR_16` macro: one 8-bit channel normalized by 0xff. -/
def CLR_16 (x : Nat) : Rat := (x : Rat) / 255

/-- The `CLR_GDK` macro: split a 0xRRGGBB int into normalized channels. The
masks are applied to the 32 bits of the C int (two's complement), which for
the nonnegative values arising here is just the value itself. -/
def clrGdk (x : Int) (a : Rat) : RGBA :=
  let ux := (x % (2 ^ 32 : Int)).toNat
  { red := CLR_16 ((ux &&& 0xff0000) >>> 16)
    green := CLR_16 ((ux &&& 0x00ff00) >>> 8)
    blue := CLR_16 (ux &&& 0x0000ff)
    alpha := a }

/-- Model of `sscanf(buf, "%s %s", option, value)`: each %s skips whitespace and takes
the longest non-whitespace run; a conversion that matches nothing leaves the
corresponding C buffer with its previous content. -/
def sscanfSS (buf : String) (oldO oldV : String) : String × String :=
  let l := buf.data.dropWhile isCSpace
  let o := l.takeWhile (fun c => !isCSpace c)
  if o = [] then (oldO, oldV)
  else
    let r := (l.dropWhile (fun c => !isCSpace c)).dropWhile isCSpace
    let v := r.takeWhile (fun c => !isCSpace c)
    if v = [] then (⟨o⟩, oldV) else (⟨o⟩, ⟨v⟩)

/-- Model of `sscanf(buf, "%s %[^\n]", option, value)`: the option token as above, then
whitespace, then everything up to (not including) the newline. -/
def sscanfSRest (buf : String) (oldO oldV : String) : String × String :=
  let l := buf.data.dropWhile isCSpace
  let o := l.takeWhile (fun c => !isCSpace c)
  if o = [] then (oldO, oldV)
  else
    let r := (l.dropWhile (fun c => !isCSpace c)).dropWhile isCSpace
    let v := r.takeWhile (fun c => c != '\n')
    if v = [] then (⟨o⟩, oldV) else (⟨o⟩, ⟨v⟩)

/-- The strtok pair of the binding branch: `strtok(value, "~")` then
`strtok(NULL, "")`. Leading '~' delimiters are skipped, the key runs to the
next '~', and the command is the entire remainder after that '~' (empty
remainder, or no token at all, yields a NULL cmd and the line is dropped). -/
def splitBinding (value : String) : Option (String × String) :=
  let t := value.data.dropWhile (fun c => c == '~')
  if t = [] then none
  else
    let key := t.takeWhile (fun c => c != '~')
    let rest := (t.dropWhile (fun c => c != '~')).drop 1
    if rest = [] then none else some (⟨key⟩, ⟨rest⟩)

/-- The `strrchr(s, c)` split: the part strictly before the last occurrence of `c`
and the part strictly after it; `none` when `c` does not occur. -/
def lastCharSplit (c : Char) (s : String) : Option (String × String) :=
  if c ∈ s.data then
    some (⟨((s.data.reverse.dropWhile (fun a => a != c)).drop 1).reverse⟩,
          ⟨(s.data.reverse.takeWhile (fun a => a != c)).reverse⟩)
  else none

/-- The mutable globals parseSettings reads and writes. `termOpacity` (a C
float parsed with atof) is omitted: no claim concerns it and the directive is
modelled as recognized-but-ignored. -/
structure ParseState where
  termLocale : String
  termWordChars : String
  actionKey : Nat
  tabPosition : Nat
  termFont : String
  defaultFontSize : Int
  termCursorColor : Int
  termCursorFg : Int
  termCursorShape : Nat
  termForeground : Int
  termBoldColor : Int
  termBackground : Int
  colorCount : Nat
  termPalette : List RGBA
  keyBindings : List Bindings
  defaults : List DefaultBindings
deriving DecidableEq

/-- Modelled from the spec: the built-in Configuration defaults. The TERM_*
constants live in kermit.h, which is not under src/; the values kermit.c
itself fixes (action modifier alt = MOD1, tab position, cursor shape block,
zeroed palette and counts, pristine default-binding table) are taken from the
source, the remaining header constants are illustrative placeholders that no
claim depends on. -/
def initState : ParseState :=
  { termLocale := "en_US.UTF-8"
    termWordChars := "-./?%&_=+@~"
    actionKey := GDK_MOD1_MASK
    tabPosition := 0
    termFont := "monospace"
    defaultFontSize := 9
    termCursorColor := 0xffffff
    termCursorFg := 0x000000
    termCursorShape := VTE_CURSOR_SHAPE_BLOCK
    termForeground := 0xffffff
    termBoldColor := 0xffffff
    termBackground := 0x000000
    colorCount := 0
    termPalette := List.replicate 256 ⟨0, 0, 0, 0⟩
    keyBindings := []
    defaults := defaultKeyBindingsInit }

/-- Model of `invalidateDefaultBinding` (kermit.c 574-581): mark invalid every default
entry whose command text and internal flag both equal the new binding's. -/
def invalidateDefaultBinding (binding : Bindings) (tbl : List DefaultBindings) :
    List DefaultBindings :=
  tbl.map (fun d =>
    if d.bind.cmd = binding.cmd ∧ d.bind.internal = binding.internal then
      { d with invalid := true }
    else d)

/-- The user binding built by the bind/bindx/bindi branch (kermit.c 689-706):
the command loses its final character (the closing quote), then its first
character; bindx appends a carriage return; bindi sets the internal flag. -/
def mkBinding (option : String) (kv : String × String) : Bindings :=
  { internal := option == "bindi"
    key := kv.1
    cmd :=
      if option == "bindx" then ⟨(kv.2.data.dropLast).drop 1 ++ ['\r']⟩
      else ⟨(kv.2.data.dropLast).drop 1⟩ }

/-- The locale branch (kermit.c 668-669). -/
def setLocale (st : ParseState) (value : String) : ParseState :=
  { st with termLocale := value }

/-- The char branch (kermit.c 671-675): drop the closing and then the opening
quote character around the word-character exceptions. -/
def setWordChars (st : ParseState) (value : String) : ParseState :=
  { st with termWordChars := ⟨(value.data.dropLast).drop 1⟩ }

/-- The key branch (kermit.c 677-681): a value that strncmp-matches "alt"
selects MOD1, anything else shift. -/
def setActionKey (st : ParseState) (value : String) : ParseState :=
  { st with actionKey :=
      if cstrEqN value "alt" value.data.length then GDK_MOD1_MASK else GDK_SHIFT_MASK }

/-- Store one parsed user binding and invalidate the matching defaults
(kermit.c 705-713). -/
def addBinding (st : ParseState) (b : Bindings) : ParseState :=
  { st with keyBindings := st.keyBindings ++ [b],
            defaults := invalidateDefaultBinding b st.defaults }

/-- The tab branch (kermit.c 716-720): 0 is bottom, 1 is top (comment on
kermit.c line 54). -/
def setTabPosition (st : ParseState) (value : String) : ParseState :=
  { st with tabPosition :=
      if cstrEqN value "bottom" value.data.length then 0 else 1 }

/-- The font branch (kermit.c 722-733): the token after the last space is the
point size, everything before it the family. -/
def setFont (st : ParseState) (fs : String × String) : ParseState :=
  { st with defaultFontSize := atoi fs.2, termFont := fs.1 }

/-- The cursor branch (kermit.c 738-739). -/
def setCursorColor (st : ParseState) (value : String) : ParseState :=
  { st with termCursorColor := parseColor value }

/-- The cursor_foreground branch (kermit.c 740-741). -/
def setCursorFg (st : ParseState) (value : String) : ParseState :=
  { st with termCursorFg := parseColor value }

/-- The cursor_shape branch (kermit.c 743-749). -/
def setCursorShape (st : ParseState) (value : String) : ParseState :=
  { st with termCursorShape :=
      if cstrEqN value "underline" value.data.length then VTE_CURSOR_SHAPE_UNDERLINE
      else if cstrEqN value "ibeam" value.data.length then VTE_CURSOR_SHAPE_IBEAM
      else VTE_CURSOR_SHAPE_BLOCK }

/-- The foreground branch (kermit.c 751-752). -/
def setForeground (st : ParseState) (value : String) : ParseState :=
  { st with termForeground := parseColor value }

/-- The foreground_bold branch (kermit.c 754-755). -/
def setBoldColor (st : ParseState) (value : String) : ParseState :=
  { st with termBoldColor := parseColor value }

/-- The background branch (kermit.c 757-758). -/
def setBackground (st : ParseState) (value : String) : ParseState :=
  { st with termBackground := parseColor value }

/-- The colorN branch (kermit.c 760-768): write the parsed color at the index
after the last 'r' of the option and count the line. -/
def setPaletteColor (st : ParseState) (ci : String) (value : String) : ParseState :=
  { st with termPalette := st.termPalette.set (atoi ci).toNat (clrGdk (parseColor value) 0),
            colorCount := st.colorCount + 1 }

/-- The directive dispatch chain of the parseSettings loop body
(kermit.c 667-769), applied to the option/value pair the line's first sscanf
produced. Every strncmp compares strlen(option) characters (strlen(option)-1
for bind, strlen(option)-2 for color); the two branches that re-scan the raw
line for a value with embedded blanks do so through sscanfSRest. The Nat
guards on the bind and color branches encode the size_t underflow of
strlen-1/strlen-2 on short options, which in C makes the strncmp compare the
full strings and fail. -/
def dispatchOption (st : ParseState) (buf : String) (option value : String) :
    ParseState × String × String :=
  if cstrEqN option "locale" option.data.length then
    (setLocale st value, option, value)
  else if cstrEqN option "char" option.data.length then
    (setWordChars st value, option, value)
  else if cstrEqN option "key" option.data.length then
    (setActionKey st value, option, value)
  else if 1 ≤ option.data.length ∧ cstrEqN option "bind" (option.data.length - 1) = true then
    match sscanfSRest buf option value with
    | (option2, value2) =>
      match splitBinding value2 with
      | none => (st, option2, value2)
      | some kv => (addBinding st (mkBinding option2 kv), option2, value2)
  else if cstrEqN option "tab" option.data.length then
    (setTabPosition st value, option, value)
  else if cstrEqN option "font" option.data.length then
    match sscanfSRest buf option value with
    | (option2, value2) =>
      match lastCharSplit ' ' value2 with
      | none => (st, option2, value2)
      | some fs => (setFont st fs, option2, value2)
  else if cstrEqN option "opacity" option.data.length then
    (st, option, value)
  else if cstrEqN option "cursor" option.data.length then
    (setCursorColor st value, option, value)
  else if cstrEqN option "cursor_foreground" option.data.length then
    (setCursorFg st value, option, value)
  else if cstrEqN option "cursor_shape" option.data.length then
    (setCursorShape st value, option, value)
  else if cstrEqN option "foreground" option.data.length then
    (setForeground st value, option, value)
  else if cstrEqN option "foreground_bold" option.data.length then
    (setBoldColor st value, option, value)
  else if cstrEqN option "background" option.data.length then
    (setBackground st value, option, value)
  else if 2 ≤ option.data.length ∧ cstrEqN option "color" (option.data.length - 2) = true then
    match lastCharSplit 'r' option with
    | none => (st, option, value)
    | some ci => (setPaletteColor st ci.2 value, option, value)
  else (st, option, value)

/-- One iteration of the while-fgets loop of parseSettings (kermit.c 661-770).
The accumulator carries the settings state and the option/value scratch
buffers, which C keeps across iterations (a line whose sscanf matches nothing
leaves them unchanged; they start uninitialized, modelled as empty — no claim
exercises that corner). strtok/parseColor scribbling inside the stale value
buffer is not modelled, only the strings actually stored are. Out-of-range
palette indices are undefined behavior in C (an out-of-bounds array write);
here List.set makes them a no-op, and every claim stays in range. -/
def processLine (acc : ParseState × String × String) (buf : String) :
    ParseState × String × String :=
  if buf.data.head? = some '#' ∨ buf.data.length < 4 then acc
  else
    match sscanfSS buf acc.2.1 acc.2.2 with
    | (option, value) => dispatchOption acc.1 buf option value

/-- Model of `parseSettings` (kermit.c 646-774). Passing `none` models fopen returning NULL
(missing file): the function logs the diagnostic and returns without touching
any setting — in particular keyCount is reset only after a successful open.
`some lines` models the fgets loop, each string one raw line with its trailing
newline. The returned list carries the diagnostics handed to printLog (only
the missing-file one is modelled). Resolving the file name from HOME is
filesystem business outside the model. -/
def parseSettings (st : ParseState) (file : Option (List String)) :
    ParseState × List String :=
  match file with
  | none => (st, ["config file not found."])
  | some lines => ((lines.foldl processLine ({ st with keyBindings := [] }, "", "")).1, [])

/-- The palette entry the regeneration loop of `setTermColors` writes at
index i (kermit.c 434-452): ANSI block below 16 (the bright term 0x3fff is
added to every channel once i > 7), the 6x6x6 cube up to 232, the grayscale
ramp up to 256. -/
def genPaletteEntry (i : Nat) : RGBA :=
  if i < 16 then
    { blue := (((if i &&& 4 ≠ 0 then 0xc000 else 0) + (if 7 < i then 0x3fff else 0) : Nat) : Rat) / 65535
      green := (((if i &&& 2 ≠ 0 then 0xc000 else 0) + (if 7 < i then 0x3fff else 0) : Nat) : Rat) / 65535
      red := (((if i &&& 1 ≠ 0 then 0xc000 else 0) + (if 7 < i then 0x3fff else 0) : Nat) : Rat) / 65535
      alpha := 0 }
  else if i < 232 then
    { red := (((if (i - 16) / 36 = 0 then 0 else ((i - 16) / 36) * 40 + 55 : Nat)) : Rat) / 255
      green := (((if ((i - 16) / 6) % 6 = 0 then 0 else (((i - 16) / 6) % 6) * 40 + 55 : Nat)) : Rat) / 255
      blue := (((if (i - 16) % 6 = 0 then 0 else ((i - 16) % 6) * 40 + 55 : Nat)) : Rat) / 255
      alpha := 0 }
  else
    { red := (((8 + (i - 232) * 10) ||| ((8 + (i - 232) * 10) <<< 8) : Nat) : Rat) / 65535
      green := (((8 + (i - 232) * 10) ||| ((8 + (i - 232) * 10) <<< 8) : Nat) : Rat) / 65535
      blue := (((8 + (i - 232) * 10) ||| ((8 + (i - 232) * 10) <<< 8) : Nat) : Rat) / 65535
      alpha := 0 }

/-- The palette-regeneration loop of `setTermColors` (kermit.c 434-453):
`for (i = colorCount; i < 256; i++)` rewrites entry i, leaving the indices
below colorCount exactly as the parse stored them. -/
def setTermColors (colorCount : Nat) (palette : List RGBA) : List RGBA :=
  (List.range' colorCount (256 - colorCount)).foldl
    (fun p i => p.set i (genPaletteEntry i)) palette

/-- The result of a key-press under the armed modifier (kermit.c 265-304):
switch to a tab, run an internal action, feed literal text to the child, or
let the event pass through (return FALSE). -/
inductive KeyResult where
  | selectTab : Int → KeyResult
  | action : String → KeyResult
  | feed : String → KeyResult
  | passThrough : KeyResult
deriving DecidableEq

/-- The default-binding scan loop (kermit.c 278-290): declaration order; an
entry fires when its key matches case-insensitively and it is not invalid;
a key match on an invalidated entry keeps scanning. -/
def scanDefaults (name : String) : List DefaultBindings → Option Bindings
  | [] => none
  | d :: rest =>
    if strcaseEq name d.bind.key then
      if d.invalid = false then some d.bind else scanDefaults name rest
    else scanDefaults name rest

/-- The user-binding scan loop (kermit.c 291-301): load order, first
case-insensitive key match wins. -/
def scanUser (name : String) : List Bindings → Option Bindings
  | [] => none
  | b :: rest => if strcaseEq name b.key then some b else scanUser name rest

/-- Fire one binding: internal commands go to termAction, literal ones to
vte_terminal_feed_child. -/
def emitBinding (b : Bindings) : KeyResult :=
  if b.internal then .action b.cmd else .feed b.cmd

/-- Model of `termOnKeyPress` (kermit.c 265-304). The toolkit's keyval-to-name map is
external; the event carries the key symbol's name directly. -/
def termOnKeyPress (eventState : Nat) (keyName : String) (st : ParseState) : KeyResult :=
  let keyState := eventState &&& (GDK_CONTROL_MASK ||| GDK_SHIFT_MASK ||| GDK_MOD1_MASK)
  if keyState = (st.actionKey ||| GDK_CONTROL_MASK) then
    if atoi keyName ≠ 0 then .selectTab (atoi keyName - 1)
    else
      match scanDefaults keyName st.defaults with
      | some b => emitBinding b
      | none =>
        match scanUser keyName st.keyBindings with
        | some b => emitBinding b
        | none => .passThrough
  else .passThrough

/-- The notebook/session state: the tab pages (identified by the terminal
widget ids they hold), the current page index, the close-pending latch
(`closeTab` in kermit.c) and whether gtk_main is still running. -/
structure SessionState where
  tabs : List Nat
  current : Nat
  closeTab : Bool
  running : Bool
deriving DecidableEq

/-- Model of `gtk_notebook_remove_page(notebook, gtk_notebook_get_current_page(...))`.
Modelled from the spec: the external toolkit moves the active index to a
neighboring tab (the page after the removed one keeps the index; when the
last page was current the previous one is selected). -/
def removeCurrentPage (s : SessionState) : SessionState :=
  { s with tabs := s.tabs.eraseIdx s.current,
           current := if s.current = s.tabs.length - 1 then s.current - 1 else s.current }

/-- The close-tab branch of `termAction` (kermit.c 213-219): with a single
page it just returns TRUE; otherwise it sets the close-pending latch and
removes the current page. -/
def termActionCloseTab (s : SessionState) : Bool × SessionState :=
  if s.tabs.length = 1 then (true, s)
  else (true, removeCurrentPage { s with closeTab := true })

/-- Model of `termOnChildExit` (kermit.c 234-255). The handler receives the exiting
terminal but never consults it: with the latch clear it removes the current
page (or quits when it is the only one), with the latch set it only clears
the latch. -/
def termOnChildExit (terminal : Nat) (s : SessionState) : SessionState :=
  let _ := terminal
  if s.closeTab = false then
    if s.tabs.length ≠ 1 then removeCurrentPage s
    else { s with running := false }
  else { s with closeTab := false }

/-- Resolution as the spec's KeyBindingRegistry section states it: numeric
names select a tab; otherwise the first default entry whose key matches
case-insensitively and whose invalidated flag is false; otherwise the first
user binding whose key matches; otherwise pass through. -/
def resolveSpec (name : String) (st : ParseState) : KeyResult :=
  if atoi name ≠ 0 then .selectTab (atoi name - 1)
  else
    match st.defaults.find? (fun d => strcaseEq name d.bind.key && !d.invalid) with
    | some d => emitBinding d.bind
    | none =>
      match st.keyBindings.find? (fun b => strcaseEq name b.key) with
      | some b => emitBinding b
      | none => .passThrough

/-- The palette-generation formulas as the spec documents them, with the one
amendment the code forces: below 16 bits 0/1/2 contribute 0xc000/65535 to
red/green/blue and the bright bit adds 0x3fff/65535 to every channel (not
only to the channels the color bits set); 16..232 the 6x6x6 cube; 232..256
the grayscale ramp with the shade replicated into high and low byte. -/
def specPaletteEntry (i : Nat) : RGBA :=
  if i < 16 then
    { red := (if i &&& 1 ≠ 0 then (0xc000 : Rat) / 65535 else 0) +
        (if 8 ≤ i then (0x3fff : Rat) / 65535 else 0)
      green := (if i &&& 2 ≠ 0 then (0xc000 : Rat) / 65535 else 0) +
        (if 8 ≤ i then (0x3fff : Rat) / 65535 else 0)
      blue := (if i &&& 4 ≠ 0 then (0xc000 : Rat) / 65535 else 0) +
        (if 8 ≤ i then (0x3fff : Rat) / 65535 else 0)
      alpha := 0 }
  else if i < 232 then
    { red := ((if (i - 16) / 36 = 0 then 0 else ((i - 16) / 36) * 40 + 55 : Nat) : Rat) / 255
      green := ((if ((i - 16) / 6) % 6 = 0 then 0 else (((i - 16) / 6) % 6) * 40 + 55 : Nat) : Rat) / 255
      blue := ((if (i - 16) % 6 = 0 then 0 else ((i - 16) % 6) * 40 + 55 : Nat) : Rat) / 255
      alpha := 0 }
  else
    { red := (((8 + (i - 232) * 10) * 256 + (8 + (i - 232) * 10) : Nat) : Rat) / 65535
      green := (((8 + (i - 232) * 10) * 256 + (8 + (i - 232) * 10) : Nat) : Rat) / 65535
      blue := (((8 + (i - 232) * 10) * 256 + (8 + (i - 232) * 10) : Nat) : Rat) / 65535
      alpha := 0 }

/-- State after parsing the spec's example configuration fragment
`key alt` / `bindi q~reset"` / `bindx t~ls"`. -/
def bindingTestState : ParseState :=
  (parseSettings initState
    (some ["key alt\n", "bindi q~reset\"\n", "bindx t~ls\"\n"])).1

/-- State after a first pass loading a binding whose command and flag match
the default q/exit entry, followed by a second pass over an empty file. -/
def invalidatedThenReloaded : ParseState :=
  (parseSettings (parseSettings initState (some ["bindi x~\"exit\"\n"])).1 (some [])).1

/-- State after a successful load of one binding followed by a parse call
whose configuration file is missing. -/
def reloadedMissingState : ParseState :=
  (parseSettings (parseSettings initState (some ["bindi q~\"reset\"\n"])).1 none).1

/-- State after parsing a config whose only valid colorN directive sets
palette index 5. -/
def colorFiveState : ParseState :=
  (parseSettings initState (some ["color5 ff0000\n"])).1

/-- State after parsing two colorN directives for the same index 0. -/
def colorDupState : ParseState :=
  (parseSettings initState (some ["color0 ff0000\n", "color0 00ff00\n"])).1

theorem takeWhile_append_stop {p : Char → Bool} {l₁ : List Char} {c : Char} {l₂ : List Char}
    (h : ∀ a ∈ l₁, p a = true) (hc : p c = false) :
    (l₁ ++ c :: l₂).takeWhile p = l₁ := by
  induction l₁ with
  | nil => simp [List.takeWhile_cons, hc]
  | cons a t ih =>
    have ha : p a = true := h a (List.mem_cons_self a t)
    simp only [List.cons_append, List.takeWhile_cons, ha, if_true]
    rw [ih (fun x hx => h x (List.mem_cons_of_mem a hx))]

theorem dropWhile_append_stop {p : Char → Bool} {l₁ : List Char} {c : Char} {l₂ : List Char}
    (h : ∀ a ∈ l₁, p a = true) (hc : p c = false) :
    (l₁ ++ c :: l₂).dropWhile p = c :: l₂ := by
  induction l₁ with
  | nil => simp [List.dropWhile_cons, hc]
  | cons a t ih =>
    have ha : p a = true := h a (List.mem_cons_self a t)
    simp only [List.cons_append, List.dropWhile_cons, ha, if_true]
    exact ih (fun x hx => h x (List.mem_cons_of_mem a hx))

theorem foldl_set_getElem? (l : List Nat) (p : List RGBA) (i : Nat) :
    (l.foldl (fun q j => q.set j (genPaletteEntry j)) p)[i]? =
      if i ∈ l ∧ i < p.length then some (genPaletteEntry i) else p[i]? := by
  induction l generalizing p with
  | nil => simp
  | cons k t ih =>
    rw [List.foldl_cons, ih, List.length_set]
    by_cases hkt : i ∈ t
    · by_cases hl : i < p.length
      · rw [if_pos ⟨hkt, hl⟩, if_pos ⟨List.mem_cons_of_mem k hkt, hl⟩]
      · have hnone : p[i]? = none := List.getElem?_eq_none (by omega)
        rw [if_neg (by tauto), if_neg (by tauto), List.getElem?_set, hnone]
        split_ifs with h1 h2
        · omega
        · rfl
        · rfl
    · by_cases hki : k = i
      · subst hki
        rw [if_neg (by tauto), List.getElem?_set, if_pos rfl]
        by_cases hl : k < p.length
        · rw [if_pos hl, if_pos ⟨List.mem_cons_self k t, hl⟩]
        · have hnone : p[k]? = none := List.getElem?_eq_none (by omega)
          rw [if_neg hl, if_neg (by tauto), hnone]
      · have hmem : i ∉ k :: t := by
          intro hmem
          rcases List.mem_cons.mp hmem with h | h
          · exact hki h.symm
          · exact hkt h
        rw [if_neg (by tauto), List.getElem?_set, if_neg hki, if_neg (by tauto)]

theorem setTermColors_getElem? (cc : Nat) (pal : List RGBA) (i : Nat)
    (h : pal.length = 256) (hi : i < 256) :
    (setTermColors cc pal)[i]? = if i < cc then pal[i]? else some (genPaletteEntry i) := by
  unfold setTermColors
  rw [foldl_set_getElem?, h]
  by_cases hic : i < cc
  · rw [if_neg (by rw [List.mem_range'_1]; omega), if_pos hic]
  · rw [if_pos ⟨by rw [List.mem_range'_1]; omega, hi⟩, if_neg hic]

theorem genPaletteEntry_eq_spec : ∀ i < 256, genPaletteEntry i = specPaletteEntry i := by
  decide

theorem scanDefaults_eq_find? (name : String) (l : List DefaultBindings) :
    scanDefaults name l =
      (l.find? (fun d => strcaseEq name d.bind.key && !d.invalid)).map DefaultBindings.bind := by
  induction l with
  | nil => rfl
  | cons d rest ih =>
    unfold scanDefaults
    rw [List.find?_cons]
    cases h1 : strcaseEq name d.bind.key with
    | false => simp [h1, ih]
    | true =>
      cases h2 : d.invalid with
      | false => simp [h1, h2]
      | true => simp [h1, h2, ih]

theorem scanUser_eq_find? (name : String) (l : List Bindings) :
    scanUser name l = l.find? (fun b => strcaseEq name b.key) := by
  induction l with
  | nil => rfl
  | cons b rest ih =>
    unfold scanUser
    rw [List.find?_cons]
    cases h1 : strcaseEq name b.key with
    | false => simp [h1, ih]
    | true => simp [h1]

/-- C5: under the armed modifier combination, resolution follows exactly the
claimed order — a key name that atoi maps to a nonzero integer n selects tab
n-1; otherwise the default table is scanned in declaration order and the
first case-insensitive key match that is not invalidated fires; only then the
user bindings in load order; otherwise the event passes through. As the
claimed tie-break consequence, whenever some default entry matches the key
case-insensitively and is not invalidated, the outcome does not depend on the
user-binding list at all. -/
theorem C5_resolution_order (ev : Nat) (name : String) (st : ParseState)
    (h : ev &&& (GDK_CONTROL_MASK ||| GDK_SHIFT_MASK ||| GDK_MOD1_MASK) =
      st.actionKey ||| GDK_CONTROL_MASK) :
    termOnKeyPress ev name st = resolveSpec name st ∧
    ((∃ d ∈ st.defaults, strcaseEq name d.bind.key = true ∧ d.invalid = false) →
      ∀ ub, termOnKeyPress ev name { st with keyBindings := ub } =
        termOnKeyPress ev name st) := by
  have core : ∀ st' : ParseState,
      ev &&& (GDK_CONTROL_MASK ||| GDK_SHIFT_MASK ||| GDK_MOD1_MASK) =
        st'.actionKey ||| GDK_CONTROL_MASK →
      termOnKeyPress ev name st' = resolveSpec name st' := by
    intro st' h'
    unfold termOnKeyPress resolveSpec
    rw [if_pos h', scanDefaults_eq_find?, scanUser_eq_find?]
    by_cases ha : atoi name ≠ 0
    · rw [if_pos ha, if_pos ha]
    · rw [if_neg ha, if_neg ha]
      cases st'.defaults.find? (fun d => strcaseEq name d.bind.key && !d.invalid) with
      | some d => rfl
      | none =>
        cases st'.keyBindings.find? (fun b => strcaseEq name b.key) with
        | some b => rfl
        | none => rfl
  refine ⟨core st h, ?_⟩
  rintro ⟨d, hd, h1, h2⟩ ub
  rw [core st h, core { st with keyBindings := ub } h]
  unfold resolveSpec
  by_cases ha : atoi name ≠ 0
  · rw [if_pos ha, if_pos ha]
  · rw [if_neg ha, if_neg ha]
    have : st.defaults.find? (fun d => strcaseEq name d.bind.key && !d.invalid) ≠ none := by
      intro hnone
      have := List.find?_eq_none.mp hnone d hd
      simp [h1, h2] at this
    cases hfind : st.defaults.find? (fun d => strcaseEq name d.bind.key && !d.invalid) with
    | some d' => rfl
    | none => exact absurd hfind this

/-- Witness for C5 at a concrete armed event: control+alt (state 12) with key
name "q" against the initial state. -/
theorem C5_witness :
    termOnKeyPress 12 "q" initState = resolveSpec "q" initState :=
  (C5_resolution_order 12 "q" initState (by decide)).1

/-- C10: under the armed modifier combination, a key whose name atoi-parses
to a nonzero integer always resolves to select-tab n-1, whatever the contents
of the default table and of the user-binding list — so a binding keyed on
such a numeric name can never fire. -/
theorem C10_numeric_names (ev : Nat) (name : String) (st : ParseState)
    (h : ev &&& (GDK_CONTROL_MASK ||| GDK_SHIFT_MASK ||| GDK_MOD1_MASK) =
      st.actionKey ||| GDK_CONTROL_MASK)
    (hn : atoi name ≠ 0) :
    termOnKeyPress ev name st = .selectTab (atoi name - 1) ∧
    (∀ dft ub, termOnKeyPress ev name { st with defaults := dft, keyBindings := ub } =
      .selectTab (atoi name - 1)) := by
  constructor
  · unfold termOnKeyPress
    rw [if_pos h, if_pos hn]
  · intro dft ub
    unfold termOnKeyPress
    rw [if_pos h, if_pos hn]

/-- Witness for C10: control+alt with key name "3" selects tab 2 even when a
user binding for "3" exists and the default table is empty. -/
theorem C10_witness :
    termOnKeyPress 12 "3" initState = .selectTab 2 ∧
    termOnKeyPress 12 "3"
      { initState with defaults := [], keyBindings := [⟨true, "3", "exit"⟩] } =
      .selectTab 2 :=
  ⟨(C10_numeric_names 12 "3" initState (by decide) (by decide)).1,
   (C10_numeric_names 12 "3" initState (by decide) (by decide)).2
     [] [⟨true, "3", "exit"⟩]⟩

/-- C6 (amended): a child-exit notification with the close-pending latch set
only clears the latch — no tab removal, no session termination; with the
latch clear and more than one tab, the handler removes the currently active
tab (amended from "the exiting tab": the handler never consults which
terminal exited), keeping the session running; with the latch clear and a
single tab it terminates the whole session. -/
theorem C6_child_exit (t : Nat) (s : SessionState) (h : s.current < s.tabs.length) :
    (s.closeTab = true → termOnChildExit t s = { s with closeTab := false }) ∧
    (s.closeTab = false → 2 ≤ s.tabs.length →
      termOnChildExit t s = removeCurrentPage s ∧
      (termOnChildExit t s).tabs.length = s.tabs.length - 1 ∧
      (termOnChildExit t s).running = s.running ∧
      (termOnChildExit t s).closeTab = s.closeTab) ∧
    (s.closeTab = false → s.tabs.length = 1 →
      termOnChildExit t s = { s with running := false }) := by
  refine ⟨?_, ?_, ?_⟩
  · intro hl
    unfold termOnChildExit
    rw [if_neg (by simp [hl])]
  · intro hl hn
    unfold termOnChildExit removeCurrentPage
    rw [if_pos hl, if_pos (by omega)]
    have hlen : (s.tabs.eraseIdx s.current).length = s.tabs.length - 1 :=
      List.length_eraseIdx_of_lt h
    exact ⟨rfl, hlen, rfl, rfl⟩
  · intro hl hn
    unfold termOnChildExit
    rw [if_pos hl, if_neg (by omega)]

/-- Witnesses C6 at concrete inputs: with the latch set only the latch
changes; with the latch clear and two tabs the current one is removed. -/
theorem C6_witness :
    termOnChildExit 7 ⟨[10, 20], 0, true, true⟩ = ⟨[10, 20], 0, false, true⟩ ∧
    termOnChildExit 7 ⟨[10, 20], 0, false, true⟩ = removeCurrentPage ⟨[10, 20], 0, false, true⟩ :=
  ⟨(C6_child_exit 7 ⟨[10, 20], 0, true, true⟩ (by decide)).1 rfl,
   ((C6_child_exit 7 ⟨[10, 20], 0, false, true⟩ (by decide)).2.1 rfl (by decide)).1⟩

/-- Counterexample to C6 as stated: let the child of tab 20 exit while tab 10
(index 0) is the current page and the latch is clear. The claim says the
exiting tab is removed, which would leave [10]; the handler removes the
current page instead, leaving [20] — the exiting tab survives. -/
theorem C6_counterexample :
    (termOnChildExit 20 ⟨[10, 20], 0, false, true⟩).tabs = [20] ∧
    (termOnChildExit 20 ⟨[10, 20], 0, false, true⟩).tabs ≠ [10] := by
  decide

/-- C7: the close-tab action with exactly one tab present returns TRUE and
changes nothing (a no-op, not an error); with two or more tabs it sets the
close-pending latch and removes exactly one tab, so at least one tab
remains. -/
theorem C7_close_tab (s : SessionState) (h : s.current < s.tabs.length) :
    (s.tabs.length = 1 → termActionCloseTab s = (true, s)) ∧
    (2 ≤ s.tabs.length →
      (termActionCloseTab s).1 = true ∧
      (termActionCloseTab s).2.closeTab = true ∧
      (termActionCloseTab s).2.tabs.length = s.tabs.length - 1 ∧
      1 ≤ (termActionCloseTab s).2.tabs.length) := by
  constructor
  · intro h1
    unfold termActionCloseTab
    rw [if_pos h1]
  · intro h2
    unfold termActionCloseTab removeCurrentPage
    rw [if_neg (by omega)]
    have hlen : (s.tabs.eraseIdx s.current).length = s.tabs.length - 1 :=
      List.length_eraseIdx_of_lt h
    refine ⟨rfl, rfl, hlen, ?_⟩
    show 1 ≤ (s.tabs.eraseIdx s.current).length
    omega

/-- Witnesses C7 at concrete inputs: a single-tab session is untouched; a
two-tab session keeps one tab with the latch set. -/
theorem C7_witness :
    termActionCloseTab ⟨[10], 0, false, true⟩ = (true, ⟨[10], 0, false, true⟩) ∧
    (termActionCloseTab ⟨[10, 20], 1, false, true⟩).2.closeTab = true ∧
    (termActionCloseTab ⟨[10, 20], 1, false, true⟩).2.tabs.length =
      ([10, 20] : List Nat).length - 1 :=
  ⟨(C7_close_tab ⟨[10], 0, false, true⟩ (by decide)).1 rfl,
   ((C7_close_tab ⟨[10, 20], 1, false, true⟩ (by decide)).2 (by decide)).2.1,
   ((C7_close_tab ⟨[10, 20], 1, false, true⟩ (by decide)).2 (by decide)).2.2.1⟩

/-- C4 (amended): for every palette index at or above the override count the
generated entry follows the documented formulas, with the bright bit amended
to add 0x3fff/65535 to every channel once the index exceeds 7 (so index 8,
bright black, is the dark gray 0x3fff/65535 on all channels, not zero); the
cube and grayscale ranges are as documented; and generation is deterministic:
equal inputs give identical output. -/
theorem C4_palette_formulas :
    (∀ cc pal i, pal.length = 256 → cc ≤ i → i < 256 →
      (setTermColors cc pal)[i]? = some (specPaletteEntry i)) ∧
    (∀ cc1 pal1 cc2 pal2, cc1 = cc2 → pal1 = pal2 →
      setTermColors cc1 pal1 = setTermColors cc2 pal2) := by
  constructor
  · intro cc pal i h hcc hi
    rw [setTermColors_getElem? cc pal i h hi, if_neg (by omega),
        genPaletteEntry_eq_spec i hi]
  · intro cc1 pal1 cc2 pal2 h1 h2
    rw [h1, h2]

/-- Witnesses C4 at index 8 over the zero-initialized palette. -/
theorem C4_witness :
    (setTermColors 0 initState.termPalette)[8]? = some (specPaletteEntry 8) :=
  C4_palette_formulas.1 0 initState.termPalette 8 (by decide) (by decide) (by decide)

/-- Counterexample to C4 as stated: the claim says bit 3 adds 0x3fff only to
the channels already set by the color bits, so index 8 (bright black) would
have all channels 0; the code adds 0x3fff to every channel whenever i > 7,
so index 8 has red (and green and blue) channel 0x3fff/65535, which is not 0. -/
theorem C4_counterexample :
    ((setTermColors 0 initState.termPalette)[8]?).map RGBA.red =
      some ((0x3fff : Rat) / 65535) ∧
    ((setTermColors 0 initState.termPalette)[8]?).map RGBA.red ≠ some 0 := by
  decide

/-- C3 (amended): the override count equals the number of valid colorN lines
processed counted with multiplicity (two color0 lines give count 2, not 1),
and regeneration skips exactly the indices below the override count — an
index below the count keeps whatever the parse stored there, every index at
or above the count is regenerated, never stale. Consequently a configured
index outside the contiguous range below the count does not keep its
configured color (see the counterexample). -/
theorem C3_override_regeneration :
    (∀ cc pal i, pal.length = 256 → i < 256 →
      (setTermColors cc pal)[i]? = if i < cc then pal[i]? else some (genPaletteEntry i)) ∧
    colorDupState.colorCount = 2 := by
  exact ⟨fun cc pal i h hi => setTermColors_getElem? cc pal i h hi, by decide⟩

/-- Witnesses C3: with the config that sets only palette index 5 the override
count is 1, index 0 is skipped by regeneration and index 5 is regenerated. -/
theorem C3_witness :
    (setTermColors colorFiveState.colorCount colorFiveState.termPalette)[0]? =
      (if 0 < colorFiveState.colorCount then colorFiveState.termPalette[0]?
       else some (genPaletteEntry 0)) ∧
    (setTermColors colorFiveState.colorCount colorFiveState.termPalette)[5]? =
      (if 5 < colorFiveState.colorCount then colorFiveState.termPalette[5]?
       else some (genPaletteEntry 5)) :=
  ⟨C3_override_regeneration.1 colorFiveState.colorCount colorFiveState.termPalette 0
      (by decide) (by decide),
   C3_override_regeneration.1 colorFiveState.colorCount colorFiveState.termPalette 5
      (by decide) (by decide)⟩

/-- Counterexample to C3 as stated: the config `color5 ff0000` gives S = {5}
and override count 1; the parse stores the configured red at index 5, but
regeneration rewrites every index from 1 up — index 5 does not keep its
configured color, and the skipped index is 0, which is not in S. -/
theorem C3_counterexample :
    colorFiveState.colorCount = 1 ∧
    colorFiveState.termPalette[5]? = some (clrGdk (parseColor "ff0000") 0) ∧
    (setTermColors colorFiveState.colorCount colorFiveState.termPalette)[5]? =
      some (genPaletteEntry 5) ∧
    genPaletteEntry 5 ≠ clrGdk (parseColor "ff0000") 0 := by
  decide

/-- C8 (amended): a parse call whose configuration file is missing is not an
error and logs a diagnostic, but it returns with the previous generation's
Configuration and user-binding list fully intact — nothing is replaced or
reset. Only on the initial load, where the previous state is the built-in
defaults with an empty binding list, does the claimed behavior coincide. -/
theorem C8_missing_file (st : ParseState) :
    parseSettings st none = (st, ["config file not found."]) := rfl

/-- Counterexample to C8 as stated: after a successful load of one binding, a
reload that finds the file missing keeps the previous binding list (and the
whole previous configuration) instead of yielding the built-in defaults and
an empty list. -/
theorem C8_counterexample :
    reloadedMissingState.keyBindings = [⟨true, "q", "reset"⟩] ∧
    reloadedMissingState.keyBindings ≠ [] := by decide

theorem dispatchOption_tracks (st : ParseState) (buf o v : String) :
    ∃ added : List Bindings,
      (dispatchOption st buf o v).1.keyBindings = st.keyBindings ++ added ∧
      (dispatchOption st buf o v).1.defaults =
        added.foldl (fun t b => invalidateDefaultBinding b t) st.defaults := by
  unfold dispatchOption
  by_cases h1 : cstrEqN o "locale" o.data.length = true
  · rw [if_pos h1]
    exact ⟨[], by simp [setLocale], rfl⟩
  rw [if_neg h1]
  by_cases h2 : cstrEqN o "char" o.data.length = true
  · rw [if_pos h2]
    exact ⟨[], by simp [setWordChars], rfl⟩
  rw [if_neg h2]
  by_cases h3 : cstrEqN o "key" o.data.length = true
  · rw [if_pos h3]
    exact ⟨[], by simp [setActionKey], rfl⟩
  rw [if_neg h3]
  by_cases h4 : 1 ≤ o.data.length ∧ cstrEqN o "bind" (o.data.length - 1) = true
  · rw [if_pos h4]
    rcases hsv : sscanfSRest buf o v with ⟨o2, v2⟩
    dsimp only
    cases hsb : splitBinding v2 with
    | none =>
      dsimp only
      exact ⟨[], by simp, rfl⟩
    | some kv =>
      dsimp only
      exact ⟨[mkBinding o2 kv], by simp [addBinding], by simp [addBinding]⟩
  rw [if_neg h4]
  by_cases h5 : cstrEqN o "tab" o.data.length = true
  · rw [if_pos h5]
    exact ⟨[], by simp [setTabPosition], rfl⟩
  rw [if_neg h5]
  by_cases h6 : cstrEqN o "font" o.data.length = true
  · rw [if_pos h6]
    rcases hsv : sscanfSRest buf o v with ⟨o2, v2⟩
    dsimp only
    cases hfs : lastCharSplit ' ' v2 with
    | none =>
      dsimp only
      exact ⟨[], by simp, rfl⟩
    | some fs =>
      dsimp only
      exact ⟨[], by simp [setFont], rfl⟩
  rw [if_neg h6]
  by_cases h7 : cstrEqN o "opacity" o.data.length = true
  · rw [if_pos h7]
    exact ⟨[], by simp, rfl⟩
  rw [if_neg h7]
  by_cases h8 : cstrEqN o "cursor" o.data.length = true
  · rw [if_pos h8]
    exact ⟨[], by simp [setCursorColor], rfl⟩
  rw [if_neg h8]
  by_cases h9 : cstrEqN o "cursor_foreground" o.data.length = true
  · rw [if_pos h9]
    exact ⟨[], by simp [setCursorFg], rfl⟩
  rw [if_neg h9]
  by_cases h10 : cstrEqN o "cursor_shape" o.data.length = true
  · rw [if_pos h10]
    exact ⟨[], by simp [setCursorShape], rfl⟩
  rw [if_neg h10]
  by_cases h11 : cstrEqN o "foreground" o.data.length = true
  · rw [if_pos h11]
    exact ⟨[], by simp [setForeground], rfl⟩
  rw [if_neg h11]
  by_cases h12 : cstrEqN o "foreground_bold" o.data.length = true
  · rw [if_pos h12]
    exact ⟨[], by simp [setBoldColor], rfl⟩
  rw [if_neg h12]
  by_cases h13 : cstrEqN o "background" o.data.length = true
  · rw [if_pos h13]
    exact ⟨[], by simp [setBackground], rfl⟩
  rw [if_neg h13]
  by_cases h14 : 2 ≤ o.data.length ∧ cstrEqN o "color" (o.data.length - 2) = true
  · rw [if_pos h14]
    cases hci : lastCharSplit 'r' o with
    | none =>
      dsimp only
      exact ⟨[], by simp, rfl⟩
    | some ci =>
      dsimp only
      exact ⟨[], by simp [setPaletteColor], rfl⟩
  rw [if_neg h14]
  exact ⟨[], by simp, rfl⟩

theorem processLine_tracks (acc : ParseState × String × String) (buf : String) :
    ∃ added : List Bindings,
      (processLine acc buf).1.keyBindings = acc.1.keyBindings ++ added ∧
      (processLine acc buf).1.defaults =
        added.foldl (fun t b => invalidateDefaultBinding b t) acc.1.defaults := by
  unfold processLine
  by_cases h0 : buf.data.head? = some '#' ∨ buf.data.length < 4
  · rw [if_pos h0]
    exact ⟨[], by simp, rfl⟩
  · rw [if_neg h0]
    rcases hsv : sscanfSS buf acc.2.1 acc.2.2 with ⟨o, v⟩
    exact dispatchOption_tracks acc.1 buf o v

theorem processLines_tracks (lines : List String) (acc : ParseState × String × String) :
    ∃ added : List Bindings,
      (lines.foldl processLine acc).1.keyBindings = acc.1.keyBindings ++ added ∧
      (lines.foldl processLine acc).1.defaults =
        added.foldl (fun t b => invalidateDefaultBinding b t) acc.1.defaults := by
  induction lines generalizing acc with
  | nil => exact ⟨[], by simp, rfl⟩
  | cons l ls ih =>
    obtain ⟨a1, h1, h2⟩ := processLine_tracks acc l
    obtain ⟨a2, g1, g2⟩ := ih (processLine acc l)
    refine ⟨a1 ++ a2, ?_, ?_⟩
    · rw [List.foldl_cons, g1, h1, List.append_assoc]
    · rw [List.foldl_cons, g2, h2, List.foldl_append]

theorem foldl_invalidate_getD (added : List Bindings) (tbl : List DefaultBindings)
    (i : Nat) (D0 : DefaultBindings) (h : i < tbl.length) :
    (added.foldl (fun t b => invalidateDefaultBinding b t) tbl).getD i D0 =
      (if ∃ b ∈ added, (tbl.getD i D0).bind.cmd = b.cmd ∧
          (tbl.getD i D0).bind.internal = b.internal then
        { tbl.getD i D0 with invalid := true }
      else tbl.getD i D0) := by
  induction added generalizing tbl with
  | nil => simp
  | cons b r ih =>
    rw [List.foldl_cons]
    have hlen : (invalidateDefaultBinding b tbl).length = tbl.length := by
      unfold invalidateDefaultBinding
      exact List.length_map tbl _
    have hmap : (invalidateDefaultBinding b tbl).getD i D0 =
        (if (tbl.getD i D0).bind.cmd = b.cmd ∧
            (tbl.getD i D0).bind.internal = b.internal then
          { tbl.getD i D0 with invalid := true }
        else tbl.getD i D0) := by
      unfold invalidateDefaultBinding
      rw [List.getD_eq_getElem?_getD, List.getElem?_map, List.getD_eq_getElem?_getD]
      cases htb : tbl[i]? with
      | none =>
        exfalso
        have := List.getElem?_eq_none_iff.mp htb
        omega
      | some x => rfl
    rw [ih (invalidateDefaultBinding b tbl) (by omega), hmap]
    by_cases hb : (tbl.getD i D0).bind.cmd = b.cmd ∧
        (tbl.getD i D0).bind.internal = b.internal
    · rw [if_pos hb]
      have hex : ∃ c ∈ b :: r, (tbl.getD i D0).bind.cmd = c.cmd ∧
          (tbl.getD i D0).bind.internal = c.internal :=
        ⟨b, List.mem_cons_self b r, hb⟩
      rw [if_pos hex]
      split_ifs <;> rfl
    · rw [if_neg hb]
      have hiff : (∃ c ∈ r, (tbl.getD i D0).bind.cmd = c.cmd ∧
            (tbl.getD i D0).bind.internal = c.internal) ↔
          (∃ c ∈ b :: r, (tbl.getD i D0).bind.cmd = c.cmd ∧
            (tbl.getD i D0).bind.internal = c.internal) := by
        constructor
        · rintro ⟨c, hc, hp⟩
          exact ⟨c, List.mem_cons_of_mem b hc, hp⟩
        · rintro ⟨c, hc, hp⟩
          rcases List.mem_cons.mp hc with hceq | hc'
          · exact absurd (hceq ▸ hp) hb
          · exact ⟨c, hc', hp⟩
      split_ifs with h1 h2 h2 <;>
        first
          | rfl
          | exact absurd (hiff.mp h1) h2
          | exact absurd (hiff.mpr h2) h1

/-- C2 (amended): the invalidated flags are never reset — not at the start of
a parse pass nor anywhere else. After a pass over any file, every default
entry keeps its binding, and it is invalidated exactly when it was already
invalidated before the pass or some binding in the newly loaded user-binding
list has the same command text and the same internal flag. (On the very first
pass, where no entry is invalidated yet, this reduces to the claimed iff.) -/
theorem C2_invalidation (st : ParseState) (lines : List String) (i : Nat)
    (D0 : DefaultBindings) (h : i < st.defaults.length) :
    ((parseSettings st (some lines)).1.defaults.getD i D0).bind =
      (st.defaults.getD i D0).bind ∧
    (((parseSettings st (some lines)).1.defaults.getD i D0).invalid = true ↔
      ((st.defaults.getD i D0).invalid = true ∨
        ∃ b ∈ (parseSettings st (some lines)).1.keyBindings,
          (st.defaults.getD i D0).bind.cmd = b.cmd ∧
          (st.defaults.getD i D0).bind.internal = b.internal)) := by
  obtain ⟨added, h1, h2⟩ :=
    processLines_tracks lines ({ st with keyBindings := [] }, "", "")
  have e1 : (parseSettings st (some lines)).1.keyBindings = added := h1
  have e2 : (parseSettings st (some lines)).1.defaults =
      added.foldl (fun t b => invalidateDefaultBinding b t) st.defaults := h2
  rw [e1, e2, foldl_invalidate_getD added st.defaults i D0 h]
  by_cases hex : ∃ b ∈ added, (st.defaults.getD i D0).bind.cmd = b.cmd ∧
      (st.defaults.getD i D0).bind.internal = b.internal
  · rw [if_pos hex]
    exact ⟨rfl, fun _ => Or.inr hex, fun _ => rfl⟩
  · rw [if_neg hex]
    exact ⟨rfl, fun hv => Or.inl hv, fun hv => hv.resolve_right hex⟩

/-- Witnesses C2 on the default q/exit entry (index 7) for a pass that loads
the single binding `bindi x~"exit"`. -/
theorem C2_witness :
    (((parseSettings initState (some ["bindi x~\"exit\"\n"])).1.defaults.getD 7
        ⟨⟨false, "", ""⟩, false⟩).invalid = true ↔
      ((initState.defaults.getD 7 ⟨⟨false, "", ""⟩, false⟩).invalid = true ∨
        ∃ b ∈ (parseSettings initState (some ["bindi x~\"exit\"\n"])).1.keyBindings,
          (initState.defaults.getD 7 ⟨⟨false, "", ""⟩, false⟩).bind.cmd = b.cmd ∧
          (initState.defaults.getD 7 ⟨⟨false, "", ""⟩, false⟩).bind.internal = b.internal)) :=
  (C2_invalidation initState ["bindi x~\"exit\"\n"] 7 ⟨⟨false, "", ""⟩, false⟩ (by decide)).2

/-- Counterexample to C2 as stated: a first pass loads `bindi x~"exit"`,
whose stored command "exit" and internal flag match the default q/exit entry
(index 7), invalidating it; a second pass over an empty file loads no
bindings, yet the entry is still invalidated — the flag was not reset at the
start of the pass, and the claimed iff fails. -/
theorem C2_counterexample :
    (invalidatedThenReloaded.defaults.getD 7 ⟨⟨false, "", ""⟩, false⟩).invalid = true ∧
    invalidatedThenReloaded.keyBindings = [] := by decide

theorem sscanfSS_token (t : String) (k : Char) (w : List Char) (o0 v0 : String)
    (ht1 : t.data ≠ []) (ht2 : ∀ a ∈ t.data, isCSpace a = false)
    (hk : isCSpace k = false) :
    sscanfSS ⟨t.data ++ ' ' :: k :: w⟩ o0 v0 =
      (t, ⟨k :: w.takeWhile (fun c => !isCSpace c)⟩) := by
  obtain ⟨a, t', ht⟩ : ∃ a t', t.data = a :: t' := by
    cases hd : t.data with
    | nil => exact absurd hd ht1
    | cons a t' => exact ⟨a, t', rfl⟩
  have ha : isCSpace a = false := ht2 a (by rw [ht]; exact List.mem_cons_self a t')
  have hall : ∀ x ∈ t.data, (!isCSpace x) = true := fun x hx => by simp [ht2 x hx]
  have e1 : (t.data ++ ' ' :: k :: w).dropWhile isCSpace = t.data ++ ' ' :: k :: w := by
    rw [ht, List.cons_append, List.dropWhile_cons, if_neg (by simp [ha])]
  have e2 : (t.data ++ ' ' :: k :: w).takeWhile (fun c => !isCSpace c) = t.data :=
    takeWhile_append_stop hall (by decide)
  have e3 : (t.data ++ ' ' :: k :: w).dropWhile (fun c => !isCSpace c) = ' ' :: k :: w :=
    dropWhile_append_stop hall (by decide)
  have e4 : (' ' :: k :: w).dropWhile isCSpace = k :: w := by
    rw [List.dropWhile_cons, if_pos (by decide), List.dropWhile_cons, if_neg (by simp [hk])]
  have e5 : (k :: w).takeWhile (fun c => !isCSpace c) =
      k :: w.takeWhile (fun c => !isCSpace c) := by
    rw [List.takeWhile_cons, if_pos (by simp [hk])]
  unfold sscanfSS
  dsimp only
  rw [e1, e2, if_neg ht1, e3, e4, e5, if_neg (by simp)]

theorem sscanfSRest_token (t : String) (k : Char) (w : List Char) (o0 v0 : String)
    (ht1 : t.data ≠ []) (ht2 : ∀ a ∈ t.data, isCSpace a = false)
    (hk : isCSpace k = false) (hw : ∀ a ∈ w, a ≠ '\n') :
    sscanfSRest ⟨t.data ++ ' ' :: k :: (w ++ ['\n'])⟩ o0 v0 = (t, ⟨k :: w⟩) := by
  obtain ⟨a, t', ht⟩ : ∃ a t', t.data = a :: t' := by
    cases hd : t.data with
    | nil => exact absurd hd ht1
    | cons a t' => exact ⟨a, t', rfl⟩
  have ha : isCSpace a = false := ht2 a (by rw [ht]; exact List.mem_cons_self a t')
  have hall : ∀ x ∈ t.data, (!isCSpace x) = true := fun x hx => by simp [ht2 x hx]
  have hkn : k ≠ '\n' := by
    intro he
    rw [he] at hk
    exact absurd hk (by decide)
  have e1 : (t.data ++ ' ' :: k :: (w ++ ['\n'])).dropWhile isCSpace =
      t.data ++ ' ' :: k :: (w ++ ['\n']) := by
    rw [ht, List.cons_append, List.dropWhile_cons, if_neg (by simp [ha])]
  have e2 : (t.data ++ ' ' :: k :: (w ++ ['\n'])).takeWhile (fun c => !isCSpace c) = t.data :=
    takeWhile_append_stop hall (by decide)
  have e3 : (t.data ++ ' ' :: k :: (w ++ ['\n'])).dropWhile (fun c => !isCSpace c) =
      ' ' :: k :: (w ++ ['\n']) :=
    dropWhile_append_stop hall (by decide)
  have e4 : (' ' :: k :: (w ++ ['\n'])).dropWhile isCSpace = k :: (w ++ ['\n']) := by
    rw [List.dropWhile_cons, if_pos (by decide), List.dropWhile_cons, if_neg (by simp [hk])]
  have e5 : (k :: (w ++ ['\n'])).takeWhile (fun c => c != '\n') = k :: w := by
    rw [List.takeWhile_cons, if_pos (by simp [hkn])]
    have : w ++ ['\n'] = w ++ '\n' :: [] := rfl
    rw [this, takeWhile_append_stop (fun x hx => by simp [hw x hx]) (by decide)]
  unfold sscanfSRest
  dsimp only
  rw [e1, e2, if_neg ht1, e3, e4, e5, if_neg (by simp)]

theorem splitBinding_eq (k : Char) (key' rest : List Char)
    (hk : k ≠ '~') (hkey : ∀ c ∈ key', c ≠ '~') (hr : rest ≠ []) :
    splitBinding ⟨k :: (key' ++ '~' :: rest)⟩ = some (⟨k :: key'⟩, ⟨rest⟩) := by
  have hall : ∀ x ∈ k :: key', (x != '~') = true := by
    intro x hx
    rcases List.mem_cons.mp hx with he | hm
    · simp [he, hk]
    · simp [hkey x hm]
  have e1 : (k :: (key' ++ '~' :: rest)).dropWhile (fun c => c == '~') =
      k :: (key' ++ '~' :: rest) := by
    rw [List.dropWhile_cons, if_neg (by simp [hk])]
  have e2 : (k :: (key' ++ '~' :: rest)).takeWhile (fun c => c != '~') = k :: key' := by
    have : k :: (key' ++ '~' :: rest) = (k :: key') ++ '~' :: rest := by simp
    rw [this]
    exact takeWhile_append_stop hall (by decide)
  have e3 : (k :: (key' ++ '~' :: rest)).dropWhile (fun c => c != '~') = '~' :: rest := by
    have : k :: (key' ++ '~' :: rest) = (k :: key') ++ '~' :: rest := by simp
    rw [this]
    exact dropWhile_append_stop hall (by decide)
  unfold splitBinding
  dsimp only
  rw [e1, if_neg (by simp), e2, e3]
  simp [hr]

theorem processLine_bind (opt : String) (k : Char) (key' inner : List Char)
    (st : ParseState) (o0 v0 : String)
    (hopt : opt = "bind" ∨ opt = "bindx" ∨ opt = "bindi")
    (hk : isCSpace k = false) (hk2 : k ≠ '~')
    (hkey : ∀ c ∈ key', isCSpace c = false ∧ c ≠ '~')
    (hinner : ∀ c ∈ inner, c ≠ '\n') :
    processLine (st, o0, v0)
        ⟨opt.data ++ ' ' :: k :: ((key' ++ '~' :: (inner ++ ['"'])) ++ ['\n'])⟩ =
      (addBinding st (mkBinding opt (⟨k :: key'⟩, ⟨inner ++ ['"']⟩)), opt,
        ⟨k :: (key' ++ '~' :: (inner ++ ['"']))⟩) := by
  have hw : ∀ a ∈ key' ++ '~' :: (inner ++ ['"']), a ≠ '\n' := by
    intro a ha
    rcases List.mem_append.mp ha with hm | hm
    · intro he
      have := (hkey a hm).1
      rw [he] at this
      exact absurd this (by decide)
    · rcases List.mem_cons.mp hm with he | hm2
      · rw [he]; decide
      · rcases List.mem_append.mp hm2 with hm3 | hm3
        · exact hinner a hm3
        · rcases List.mem_singleton.mp hm3 with rfl
          decide
  rcases hopt with h | h | h <;> subst h <;>
  · unfold processLine
    rw [if_neg (by
      rintro (hh | hh)
      · rw [show (⟨_ ++ ' ' :: k :: ((key' ++ '~' :: (inner ++ ['"'])) ++ ['\n'])⟩ :
            String).data = _ ++ ' ' :: k :: ((key' ++ '~' :: (inner ++ ['"'])) ++ ['\n'])
            from rfl] at hh
        revert hh
        cases hd : key' <;> simp
      · revert hh
        simp [List.length_append])]
    rw [sscanfSS_token _ k _ o0 v0 (by decide) (by decide) hk]
    dsimp only
    unfold dispatchOption
    rw [if_neg (by decide), if_neg (by decide), if_neg (by decide), if_pos (by decide)]
    rw [sscanfSRest_token _ k _ _ _ (by decide) (by decide) hk hw]
    dsimp only
    rw [splitBinding_eq k key' (inner ++ ['"']) hk2 (fun c hc => (hkey c hc).2) (by simp)]

theorem processLine_tab (k : Char) (v' : List Char) (st : ParseState) (o0 v0 : String)
    (hk : isCSpace k = false) (hv : ∀ a ∈ v', isCSpace a = false) :
    processLine (st, o0, v0) ⟨("tab" : String).data ++ ' ' :: k :: (v' ++ ['\n'])⟩ =
      (setTabPosition st ⟨k :: v'⟩, "tab", ⟨k :: v'⟩) := by
  unfold processLine
  rw [if_neg (by
    rintro (hh | hh)
    · revert hh
      simp
    · revert hh
      simp [List.length_append])]
  rw [sscanfSS_token _ k _ o0 v0 (by decide) (by decide) hk]
  have hv2 : (v' ++ ['\n']).takeWhile (fun c => !isCSpace c) = v' := by
    have : v' ++ ['\n'] = v' ++ '\n' :: [] := rfl
    rw [this, takeWhile_append_stop (fun x hx => by simp [hv x hx]) (by decide)]
  rw [hv2]
  dsimp only
  unfold dispatchOption
  rw [if_neg (by decide), if_neg (by decide), if_neg (by decide), if_neg (by decide),
      if_pos (by decide)]

/-- C9 (amended): the `tab` directive maps a value to the bottom position
(tabPosition 0, per the source comment "0/1 -> bottom/top") exactly when the
value is a prefix of "bottom" — "bottom" itself, but also "b", "bo", "bot",
"bott", "botto" — because the comparison is
strncmp(value, "bottom", strlen(value)); every value that is not a prefix of
"bottom" (e.g. "top") maps to top (1). -/
theorem C9_tab_directive (k : Char) (v' : List Char) (st : ParseState) (o0 v0 : String)
    (hk : isCSpace k = false) (hv : ∀ a ∈ v', isCSpace a = false) :
    (processLine (st, o0, v0)
        ⟨("tab" : String).data ++ ' ' :: k :: (v' ++ ['\n'])⟩).1.tabPosition =
      if k :: v' = List.take (k :: v').length ("bottom" : String).data then 0 else 1 := by
  rw [processLine_tab k v' st o0 v0 hk hv]
  show (setTabPosition st ⟨k :: v'⟩).tabPosition = _
  unfold setTabPosition cstrEqN
  dsimp only
  rw [List.take_length]
  have hbeq : ((k :: v' == List.take (k :: v').length ("bottom" : String).data) = true) ↔
      (k :: v' = List.take (k :: v').length ("bottom" : String).data) := beq_iff_eq
  by_cases hp : k :: v' = List.take (k :: v').length ("bottom" : String).data
  · rw [if_pos (hbeq.mpr hp), if_pos hp]
  · rw [if_neg (fun hc => hp (hbeq.mp hc)), if_neg hp]

/-- Witnesses C9 at the value "bot", a proper prefix of "bottom": the
directive selects the bottom position. -/
theorem C9_witness :
    (processLine (initState, "", "")
        ⟨("tab" : String).data ++ ' ' :: 'b' :: (['o', 't'] ++ ['\n'])⟩).1.tabPosition =
      if 'b' :: ['o', 't'] = List.take ('b' :: ['o', 't']).length ("bottom" : String).data
      then 0 else 1 :=
  C9_tab_directive 'b' ['o', 't'] initState "" "" (by decide) (by decide)

/-- Counterexample to C9 as stated: "bot" is not "bottom", so the claim maps
it to the top position (1); strncmp compares only strlen("bot") = 3
characters, so the code maps it to bottom (0). -/
theorem C9_counterexample :
    (parseSettings initState (some ["tab bot\n"])).1.tabPosition = 0 ∧
    (parseSettings initState (some ["tab bot\n"])).1.tabPosition ≠ 1 := by decide

/-- C1 (amended): parsing the binding lines `bindi q~reset"` and `bindx t~ls"`
under `key alt` yields the action modifier alt and exactly the user bindings
{key "q", cmd "eset", internal} and {key "t", cmd "s\r", literal} — not
"reset"/"ls\r" as claimed: per the general rule (second conjunct, stated for
every well-formed binding line) the stored command is the text between the
'~' separator and the trailing quote, with the trailing quote stripped AND
the command's leading character stripped, a carriage return appended for
bindx, and the internal flag set only for bindi. -/
theorem C1_binding_lines :
    (bindingTestState.keyBindings = [⟨true, "q", "eset"⟩, ⟨false, "t", "s\r"⟩] ∧
     bindingTestState.actionKey = GDK_MOD1_MASK) ∧
    (∀ (opt : String), opt = "bind" ∨ opt = "bindx" ∨ opt = "bindi" →
     ∀ (k : Char) (key' inner : List Char) (st : ParseState) (o0 v0 : String),
      isCSpace k = false → k ≠ '~' →
      (∀ c ∈ key', isCSpace c = false ∧ c ≠ '~') →
      (∀ c ∈ inner, c ≠ '\n') →
      (processLine (st, o0, v0)
          ⟨opt.data ++ ' ' :: k ::
            ((key' ++ '~' :: (inner ++ ['"'])) ++ ['\n'])⟩).1.keyBindings =
        st.keyBindings ++
          [⟨opt == "bindi", ⟨k :: key'⟩,
            ⟨inner.drop 1 ++ (if opt == "bindx" then ['\r'] else [])⟩⟩]) := by
  constructor
  · exact ⟨by decide, by decide⟩
  · intro opt hopt k key' inner st o0 v0 hk hk2 hkey hinner
    rw [processLine_bind opt k key' inner st o0 v0 hopt hk hk2 hkey hinner]
    show (addBinding st (mkBinding opt (⟨k :: key'⟩, ⟨inner ++ ['"']⟩))).keyBindings = _
    unfold addBinding mkBinding
    dsimp only
    by_cases hx : (opt == "bindx") = true
    · simp [hx]
    · simp [hx]

/-- Witnesses the C1 rule on the line `bindx o~"xdg-open ."`: the stored
command drops the captured opening quote and gains the carriage return. -/
theorem C1_witness :
    (processLine (initState, "", "")
        ⟨("bindx" : String).data ++ ' ' :: 'o' ::
          (([] ++ '~' :: (("\"xdg-open .".data) ++ ['"'])) ++ ['\n'])⟩).1.keyBindings =
      initState.keyBindings ++
        [⟨("bindx" : String) == "bindi", ⟨'o' :: []⟩,
          ⟨(("\"xdg-open .".data)).drop 1 ++
            (if ("bindx" : String) == "bindx" then ['\r'] else [])⟩⟩] :=
  C1_binding_lines.2 "bindx" (Or.inr (Or.inl rfl)) 'o' [] ("\"xdg-open .".data)
    initState "" "" (by decide) (by decide) (by decide) (by decide)

/-- Counterexample to C1 as stated: the claim asserts the stored bindings are
{q, "reset", internal} and {t, "ls\r", literal}; the code also strips the
command's first character after trimming the trailing quote (cmd + 1 in
kermit.c 696-698), so it stores "eset" and "s\r". -/
theorem C1_counterexample :
    bindingTestState.keyBindings ≠ [⟨true, "q", "reset"⟩, ⟨false, "t", "ls\r"⟩] ∧
    bindingTestState.keyBindings = [⟨true, "q", "eset"⟩, ⟨false, "t", "s\r"⟩] := by
  decide
